import Mathlib

/-!
Verification development for the spatial key-value extraction engine of the
id_scanner_app repository (src/app.py).  The definitions below are a shallow
embedding of the parsing logic in `app.py` lines 50-179: coordinates are
rationals (the Python floats only ever hold small decimal constants and
OCR box coordinates), word text is `String`, and the Python `dict` that the
orchestrator builds is an association list manipulated with insert / pop /
get operations that mirror CPython dict semantics (insertion order, update
in place, pop removes).
-/

namespace IdScanner

/- Batteries marks the rational operations irreducible, which blocks kernel
evaluation of concrete instances; restore the default reducibility. -/
attribute [local semireducible] Rat.add Rat.mul Rat.sub Rat.inv

/-- A bounding box, `((x_min, y_min), (x_max, y_max))` in doctr's
`word.geometry`, flattened into four named fields.  `geometry[0][0]` is
`xmin`, `geometry[0][1]` is `ymin`, `geometry[1][0]` is `xmax`,
`geometry[1][1]` is `ymax`. -/
structure BBox where
  xmin : ℚ
  ymin : ℚ
  xmax : ℚ
  ymax : ℚ
deriving DecidableEq, Repr

/-- A recognized word: its text (`word.value` in doctr) and its bounding
box (`word.geometry`). -/
structure Word where
  value : String
  geometry : BBox
deriving DecidableEq, Repr

/-- Python's `abs` on rationals. -/
def qabs (x : ℚ) : ℚ := if x < 0 then -x else x

/-- Python's binary `min` on rationals. -/
def qmin (a b : ℚ) : ℚ := if a ≤ b then a else b

/-- Python's binary `max` on rationals. -/
def qmax (a b : ℚ) : ℚ := if a ≤ b then b else a

/-- Horizontal center of a word, `(word.geometry[0][0] + word.geometry[1][0]) / 2`
in `get_text_in_area`. -/
def centerX (w : Word) : ℚ := (w.geometry.xmin + w.geometry.xmax) / 2

/-- Vertical center of a word, `(word.geometry[0][1] + word.geometry[1][1]) / 2`. -/
def centerY (w : Word) : ℚ := (w.geometry.ymin + w.geometry.ymax) / 2

/-- Python's `\w` character class restricted to ASCII: letters, digits and
the underscore.  `re.sub(r'[^\w]', '', s)` keeps exactly these characters. -/
def isWordChar (c : Char) : Bool := c.isAlpha || c.isDigit || c == '_'

/-- The token normalizer, `re.sub(r'[^\w]', '', word).lower()` in
`find_key_phrase` (app.py lines 52 and 56): drop every non-word character,
then lower-case the remainder. -/
def normalizeToken (s : String) : String :=
  String.mk ((s.data.filter isWordChar).map Char.toLower)

/-- Character-level split on the space character, keeping empty fragments
(the behaviour of `str.split(" ")`). -/
def splitAux : List Char → List Char → List String
  | [], acc => [String.mk acc.reverse]
  | c :: cs, acc =>
    if c = ' ' then String.mk acc.reverse :: splitAux cs []
    else splitAux cs (c :: acc)

/-- `phrase.split()`: split on whitespace runs, discarding empty fragments
(the key phrases in this program contain no whitespace other than spaces). -/
def splitWords (s : String) : List String :=
  (splitAux s.data []).filter (fun t => t ≠ "")

/-- The normalized token list of a phrase,
`[re.sub(r'[^\w]', '', word).lower() for word in phrase.split()]` (app.py line 52). -/
def phraseTokens (phrase : String) : List String :=
  (splitWords phrase).map normalizeToken

/-- The candidate window of a phrase search starting at the head of `ws`:
`all_words[i : i + len(phrase_words)]` with `i` the position of `ws`
inside the full list. -/
def window0 (pw : List String) (ws : List Word) : List Word := ws.take pw.length

/-- The content condition of app.py line 57: the normalized texts of the
window equal the phrase tokens. -/
def contentMatch (pw : List String) (ws : List Word) : Bool :=
  ((window0 pw ws).map (fun w => normalizeToken w.value)) == pw

/-- The same-line condition of app.py line 59:
`abs(first_box[0][1] - last_box[0][1]) < 0.02`, i.e. the `y_min` values of
the first and last word of the sequence differ by less than `0.02`. -/
def sameLineCheck (seq : List Word) : Bool :=
  match seq.head?, seq.getLast? with
  | some f, some l => decide (qabs (f.geometry.ymin - l.geometry.ymin) < 1/50)
  | _, _ => false

/-- Acceptance of the window starting at the head of `ws`: content match
and the same-line check (app.py lines 57-59). -/
def okAt (pw : List String) (ws : List Word) : Bool :=
  contentMatch pw ws && sameLineCheck (window0 pw ws)

/-- The search loop of `find_key_phrase` (app.py lines 54-61): scan windows
left to right and return the first accepted one.  Suffixes shorter than the
phrase always fail the content match, exactly as Python's
`range(len(all_words) - len(phrase_words) + 1)` never reaches them. -/
def findRun (pw : List String) : List Word → Option (List Word)
  | [] => none
  | w :: rest =>
    if okAt pw (w :: rest) then some (window0 pw (w :: rest)) else findRun pw rest

/-- `find_key_phrase(phrase, all_words)` (app.py lines 50-61). -/
def find_key_phrase (phrase : String) (all_words : List Word) : Option (List Word) :=
  let pw := phraseTokens phrase
  if pw.isEmpty then none else findRun pw all_words

/-- `get_phrase_bbox(phrase_words)` (app.py lines 63-70): the smallest box
covering every word of the run; `None` if the run is `None` or empty. -/
def get_phrase_bbox : Option (List Word) → Option BBox
  | none => none
  | some [] => none
  | some (w :: ws) =>
    some { xmin := ws.foldl (fun a u => qmin a u.geometry.xmin) w.geometry.xmin
           ymin := ws.foldl (fun a u => qmin a u.geometry.ymin) w.geometry.ymin
           xmax := ws.foldl (fun a u => qmax a u.geometry.xmax) w.geometry.xmax
           ymax := ws.foldl (fun a u => qmax a u.geometry.ymax) w.geometry.ymax }

/-- The selection of `get_text_in_area` (app.py lines 76-82): words whose
center point lies in the closed rectangle. -/
def wordsInArea (b : BBox) (all_words : List Word) : List Word :=
  all_words.filter (fun w =>
    decide (centerX w ≥ b.xmin) && decide (centerX w ≤ b.xmax) &&
    decide (centerY w ≥ b.ymin) && decide (centerY w ≤ b.ymax))

/-- The characters removed by `.strip(":,.")` on app.py line 84. -/
def isStripChar (c : Char) : Bool := c == ':' || c == ',' || c == '.'

/-- Python's `s.strip(":,.")`: drop those characters from both ends. -/
def stripEnds (s : String) : String :=
  String.mk (((s.data.dropWhile isStripChar).reverse.dropWhile isStripChar).reverse)

/-- `get_text_in_area(bbox, all_words)` (app.py lines 72-84): empty string
for a missing box, else the values of the selected words sorted ascending by
`x_min` (Python's `list.sort` is a stable ascending sort, modelled here by
Mathlib's stable insertion sort), joined by spaces, and stripped of `":,."`. -/
def get_text_in_area (bbox : Option BBox) (all_words : List Word) : String :=
  match bbox with
  | none => ""
  | some b =>
    let sorted := (wordsInArea b all_words).insertionSort
      (fun a c => a.geometry.xmin ≤ c.geometry.xmin)
    stripEnds (String.intercalate " " (sorted.map (fun w => w.value)))

/-! ### The extraction orchestrator (`process_license_with_doctr`, app.py lines 86-179)

The OCR step (doctr) is an external collaborator: the engine starts from the
flat `page_words` list.  `extracted_data` is a Python dict, modelled as an
association list with CPython semantics: assignment to a fresh key appends,
assignment to a present key updates it in place, `pop` removes it. -/

/-- Python dict assignment `d[k] = v`: update in place if present, else append. -/
def dinsert (d : List (String × String)) (k v : String) : List (String × String) :=
  if d.any (fun p => p.1 == k) then d.map (fun p => if p.1 == k then (k, v) else p)
  else d ++ [(k, v)]

/-- Python `d.pop(k, None)`: remove the entry with key `k`. -/
def dpop (d : List (String × String)) (k : String) : List (String × String) :=
  d.filter (fun p => !(p.1 == k))

/-- Python `d.get(k, dflt)` (and `d[k]` when the key is present). -/
def dget (d : List (String × String)) (k dflt : String) : String :=
  match d.find? (fun p => p.1 == k) with
  | some p => p.2
  | none => dflt

/-- The `KEYS` table of app.py lines 95-110. -/
def KEYS : List (String × String) :=
  [("name_header", "Last Name, First Name, Middle Name"),
   ("license_number", "License No."),
   ("expiration_date", "Expiration Date"),
   ("agency_code", "Agency Code"),
   ("nationality", "Nationality"),
   ("sex", "Sex"),
   ("date_of_birth", "Date of Birth"),
   ("weight", "Weight (kg)"),
   ("height", "Height(m)"),
   ("address", "Address"),
   ("blood_type", "Blood Type"),
   ("dl_codes", "DL Codes"),
   ("eye_color", "Eyes Color"),
   ("conditions", "Conditions")]

/-- `key_bboxes[name]` (app.py line 113):
`get_phrase_bbox(find_key_phrase(text, page_words))` for the key's phrase. -/
def key_bboxes (ws : List Word) (name : String) : Option BBox :=
  match KEYS.find? (fun p => p.1 == name) with
  | some p => get_phrase_bbox (find_key_phrase p.2 ws)
  | none => none

/-- The name value (app.py lines 118-122): area below the name header and
above the Nationality key, `"NOT_FOUND"` when either anchor is missing. -/
def fullNameValue (ws : List Word) : String :=
  match key_bboxes ws "name_header" with
  | none => "NOT_FOUND"
  | some nh =>
    match key_bboxes ws "nationality" with
    | none => "NOT_FOUND"
    | some na => get_text_in_area (some ⟨nh.xmin, nh.ymax, nh.xmax, na.ymin⟩) ws

/-- The row keys of app.py line 125, in schema order. -/
def rowKeys : List String := ["nationality", "sex", "date_of_birth", "weight", "height"]

/-- The right boundary of row field `i` (app.py lines 128-130): the next row
key's `x_min` when that key exists and was found, else `1.0`. -/
def rowBoundary (ws : List Word) (i : Nat) : ℚ :=
  if i + 1 < rowKeys.length then
    match key_bboxes ws (rowKeys.getD (i + 1) "") with
    | some b => b.xmin
    | none => 1
  else 1

/-- The value of row field `i` named `name` (app.py lines 127-134): text in
the band right of the anchor, `""` when the anchor is missing. -/
def rowValue (ws : List Word) (i : Nat) (name : String) : String :=
  match key_bboxes ws name with
  | some a => get_text_in_area (some ⟨a.xmax, a.ymin, rowBoundary ws i, a.ymax⟩) ws
  | none => ""

/-- The value of a column field (app.py lines 137-143): the vertical column
under the key, bounded below by the Address key; `""` if either is missing. -/
def colValue (ws : List Word) (name : String) : String :=
  match key_bboxes ws name with
  | none => ""
  | some k =>
    match key_bboxes ws "address" with
    | none => ""
    | some ad => get_text_in_area (some ⟨k.xmin, k.ymax, k.xmax, ad.ymin⟩) ws

/-- The address value (app.py lines 146-150). -/
def addressValue (ws : List Word) : String :=
  match key_bboxes ws "address" with
  | none => ""
  | some ad =>
    match key_bboxes ws "blood_type" with
    | none => ""
    | some bt => get_text_in_area (some ⟨ad.xmin, ad.ymax, 95/100, bt.ymin⟩) ws

/-- The engine part of `process_license_with_doctr` (app.py lines 92-179),
taking the recognized `page_words` as input. -/
def process_words (ws : List Word) : List (String × String) :=
  let d1 := dinsert [] "full_name" (fullNameValue ws)
  let d2 := dinsert d1 "nationality" (rowValue ws 0 "nationality")
  let d3 := dinsert d2 "sex" (rowValue ws 1 "sex")
  let d4 := dinsert d3 "date_of_birth" (rowValue ws 2 "date_of_birth")
  let d5 := dinsert d4 "weight" (rowValue ws 3 "weight")
  let d6 := dinsert d5 "height" (rowValue ws 4 "height")
  let d7 := dinsert d6 "license_number" (colValue ws "license_number")
  let d8 := dinsert d7 "expiration_date" (colValue ws "expiration_date")
  let d9 := dinsert d8 "agency_code" (colValue ws "agency_code")
  let d10 := dinsert d9 "address" (addressValue ws)
  let d11 :=
    match key_bboxes ws "blood_type", key_bboxes ws "dl_codes" with
    | some bt, some dl =>
      dinsert
        (dinsert d10 "blood_type_value"
          (get_text_in_area (some ⟨bt.xmin, bt.ymax, dl.xmax, dl.ymin⟩) ws))
        "dl_codes_value"
        (get_text_in_area (some ⟨dl.xmin, dl.ymax, dl.xmax, 1⟩) ws)
    | _, _ => d10
  let d12 :=
    match key_bboxes ws "eye_color", key_bboxes ws "conditions" with
    | some ec, some co =>
      dinsert
        (dinsert d11 "eye_color_value"
          (get_text_in_area (some ⟨ec.xmin, ec.ymax, co.xmax, co.ymin⟩) ws))
        "conditions_value"
        (get_text_in_area (some ⟨co.xmin, co.ymax, co.xmax, 1⟩) ws)
    | _, _ => d11
  let d13 := dinsert d12 "blood_type" (dget d12 "blood_type_value" "")
  let d14 := dinsert d13 "dl_codes" (dget d13 "dl_codes_value" "")
  let d15 := dinsert d14 "eye_color" (dget d14 "eye_color_value" "")
  let d16 := dinsert d15 "conditions" (dget d15 "conditions_value" "")
  let d17 :=
    dpop (dpop (dpop (dpop d16 "blood_type_value") "dl_codes_value")
      "eye_color_value") "conditions_value"
  let d18 := dinsert d17 "barcode_data" "NOT_IMPLEMENTED"
  let d19 := dinsert d18 "photograph_base64" "NOT_IMPLEMENTED"
  dinsert d19 "signature_base64" "NOT_IMPLEMENTED"

/-! ### Claim theorems -/

/-- A word whose center point lies exactly on the boundary of the queried
rectangle: its center x and y both equal `1/2`, the rectangle's `x_max` and
`y_max`. -/
def boundaryWord : Word := ⟨"X", ⟨2/5, 2/5, 3/5, 3/5⟩⟩

/-- C1, counterexample.  The claim says a word contributes to the
Area/Between result only if its center is strictly inside the rectangle.
In the code the comparisons are `>=` and `<=` (app.py lines 78-81), so a
word whose center lies exactly on the rectangle's boundary does contribute:
with the rectangle `(0, 0, 1/2, 1/2)` and a word centered at `(1/2, 1/2)`,
the resolver returns the word's text. -/
theorem C1_boundary_contributes :
    get_text_in_area (some ⟨0, 0, 1/2, 1/2⟩) [boundaryWord] = "X" ∧
    ¬(centerX boundaryWord < 1/2 ∧ centerY boundaryWord < 1/2) := by
  constructor
  · decide
  · decide

/-- C1, amended.  A word contributes to the Area/Between resolver's
selection if and only if its center point lies inside the **closed**
queried rectangle (boundary included): the code's comparisons on app.py
lines 78-81 are non-strict.  The resolver's string result is the
space-joined text of exactly this selection. -/
theorem C1_area_containment (b : BBox) (ws : List Word) (w : Word) :
    w ∈ wordsInArea b ws ↔
      w ∈ ws ∧ b.xmin ≤ centerX w ∧ centerX w ≤ b.xmax ∧
        b.ymin ≤ centerY w ∧ centerY w ≤ b.ymax := by
  simp [wordsInArea, List.mem_filter, and_assoc, ge_iff_le]

/-- C4, counterexample.  The claim says the normalizer removes every
character that is not a letter or digit.  The code uses `re.sub(r'[^\w]', '', s)`
(app.py lines 52 and 56), and `\w` also matches the underscore, so an
underscore survives normalization even though it is neither letter nor digit. -/
theorem C4_underscore_survives :
    normalizeToken "a_b" = "a_b" ∧ ('_'.isAlpha || '_'.isDigit) = false := by
  constructor
  · decide
  · decide

/-- C4, amended.  The token normalizer lower-cases its input and removes
every character that is not a letter, a digit, **or an underscore** (the
`\w` class of the regex); exactly the same normalization is applied to the
schema's label-phrase tokens and to every recognized word's text before
comparison (app.py lines 52 and 56). -/
theorem C4_normalizer_shape :
    (∀ s : String, normalizeToken s =
      String.mk ((s.data.filter (fun c => c.isAlpha || c.isDigit || c == '_')).map
        Char.toLower)) ∧
    (∀ phrase : String, phraseTokens phrase = (splitWords phrase).map normalizeToken) ∧
    (∀ (pw : List String) (ws : List Word), contentMatch pw ws =
      (((window0 pw ws).map (fun w => normalizeToken w.value)) == pw)) :=
  ⟨fun _ => rfl, fun _ => rfl, fun _ _ => rfl⟩

/-- A word whose bounding box is malformed: `x_min = 1/2 > 3/10 = x_max`. -/
def malformedWord : Word := ⟨"BAD", ⟨1/2, 1/5, 3/10, 2/5⟩⟩

/-- C9 (code bug).  The claim — and section 7 of the spec — says a Word
with a malformed bounding box (`x_min > x_max`) should be rejected at
ingestion with a validation failure.  The code performs no validation
anywhere (app.py lines 86-179): the resolver happily computes the center of
the malformed box and returns the word's text. -/
theorem C9_malformed_box_processed :
    malformedWord.geometry.xmax < malformedWord.geometry.xmin ∧
    get_text_in_area (some ⟨0, 0, 1, 1⟩) [malformedWord] = "BAD" := by
  constructor
  · decide
  · decide

/-- C10.  Invoking the area resolver with an absent anchor box (`None`, as
produced by `get_phrase_bbox` for a missing run) returns the empty string
(app.py line 74), so a failed label lookup never propagates an error
through value resolution. -/
theorem C10_none_bbox_empty :
    ∀ ws : List Word, get_text_in_area (get_phrase_bbox none) ws = "" ∧
      get_text_in_area none ws = "" ∧
      ∀ phrase : String, find_key_phrase phrase ws = none →
        get_text_in_area (get_phrase_bbox (find_key_phrase phrase ws)) ws = "" :=
  fun _ => ⟨rfl, rfl, fun _ h => by rw [h]; rfl⟩

/-- C10, witness: the label `"Sex"` is absent from the empty word list, and
the resolver still returns the empty string. -/
theorem C10_none_bbox_empty_witness :
    get_text_in_area (get_phrase_bbox (find_key_phrase "Sex" [])) [] = "" :=
  (C10_none_bbox_empty []).2.2 "Sex" (by decide)

/-! ### Phrase-matcher lemmas (for C2 and C7) -/

/-- No window fits in the empty word list: the content match fails for a
nonempty phrase, and the same-line check fails for the empty window. -/
lemma okAt_nil (pw : List String) : okAt pw [] = false := by
  cases pw <;> simp [okAt, contentMatch, window0, sameLineCheck]

/-- A window returned by the search loop passed the same-line check. -/
lemma findRun_some_sameLine (pw : List String) :
    ∀ ws seq : List Word, findRun pw ws = some seq → sameLineCheck seq = true := by
  intro ws
  induction ws with
  | nil => intro seq h; simp [findRun] at h
  | cons w rest ih =>
    intro seq h
    by_cases hok : okAt pw (w :: rest) = true
    · simp only [findRun, hok, if_true, Option.some.injEq] at h
      subst h
      exact ((Bool.and_eq_true _ _).mp hok).2
    · have hokf : okAt pw (w :: rest) = false := Bool.eq_false_iff.mpr hok
      simp only [findRun, hokf, Bool.false_eq_true, if_false] at h
      exact ih seq h

/-- A window that fails acceptance is skipped and the search continues. -/
lemma findRun_skip (pw : List String) (w : Word) (rest : List Word)
    (hc : okAt pw (w :: rest) = false) :
    findRun pw (w :: rest) = findRun pw rest := by
  simp [findRun, hc]

/-- With a nonempty token list, `find_key_phrase` is the search loop. -/
lemma find_key_phrase_eq (phrase : String) (ws : List Word)
    (h : (phraseTokens phrase).isEmpty = false) :
    find_key_phrase phrase ws = findRun (phraseTokens phrase) ws := by
  unfold find_key_phrase
  simp [h]

/-- Two-word label run on one line: `y_min` values `0.10` and `0.11` differ
by `0.01 < 0.02`, so the code accepts it, while the vertical centers are
`0.15` and `0.21`, differing by `0.06`. -/
def licenseWord : Word := ⟨"License", ⟨1/10, 1/10, 2/10, 2/10⟩⟩

/-- The second word of the run: a taller box with the same top edge area. -/
def licenseWordTall : Word := ⟨"No.", ⟨21/100, 11/100, 31/100, 31/100⟩⟩

/-- C2, counterexample.  The claim says a content-matching window is
accepted only if the vertical centers `(y_min+y_max)/2` of its first and
last word differ by less than `0.02`.  The code (app.py line 59) compares
the `y_min` values instead: here the matcher accepts a window whose
vertical centers differ by `0.06 ≥ 0.02`, because the `y_min` values differ
by only `0.01`. -/
theorem C2_center_tolerance_cex :
    find_key_phrase "License No." [licenseWord, licenseWordTall] =
      some [licenseWord, licenseWordTall] ∧
    ¬(qabs (centerY licenseWord - centerY licenseWordTall) < 1/50) := by
  constructor
  · decide
  · decide

/-- C2, amended.  When a window of words matches the phrase's normalized
tokens, the matcher accepts it only if the **top edges** (`y_min`) of the
window's first and last word differ by less than the tolerance `0.02`
(not the vertical centers); otherwise the window is rejected and the search
continues with the next start position. -/
theorem C2_same_line_top_edge :
    (∀ (phrase : String) (ws seq : List Word),
      find_key_phrase phrase ws = some seq → sameLineCheck seq = true) ∧
    (∀ (pw : List String) (w : Word) (rest : List Word),
      contentMatch pw (w :: rest) = true →
      sameLineCheck (window0 pw (w :: rest)) = false →
      findRun pw (w :: rest) = findRun pw rest) := by
  constructor
  · intro phrase ws seq h
    by_cases hp : (phraseTokens phrase).isEmpty
    · rw [find_key_phrase, if_pos hp] at h
      exact absurd h (by simp)
    · rw [find_key_phrase_eq phrase ws (Bool.eq_false_iff.mpr hp)] at h
      exact findRun_some_sameLine _ ws seq h
  · intro pw w rest h1 h2
    exact findRun_skip pw w rest (by simp [okAt, h1, h2])

/-- First word of a content match that straddles two lines. -/
def farWord1 : Word := ⟨"License", ⟨1/10, 0, 2/10, 1/10⟩⟩

/-- Second word of that match, half a page lower. -/
def farWord2 : Word := ⟨"No", ⟨1/10, 1/2, 2/10, 6/10⟩⟩

/-- C2, witness: the accepted two-word run passes the top-edge check, and a
content-matching but vertically scattered window is skipped. -/
theorem C2_same_line_top_edge_witness :
    sameLineCheck [licenseWord, licenseWordTall] = true ∧
    findRun ["license", "no"] [farWord1, farWord2] =
      findRun ["license", "no"] [farWord2] :=
  ⟨C2_same_line_top_edge.1 "License No." [licenseWord, licenseWordTall]
      [licenseWord, licenseWordTall] (by decide),
    C2_same_line_top_edge.2 ["license", "no"] farWord1 [farWord2]
      (by decide) (by decide)⟩

/-- The search loop returns the earliest accepted window: if the window at
position `i` is accepted, the loop returns the window at some position
`j ≤ i`, and every position before `j` is rejected. -/
lemma findRun_first (pw : List String) :
    ∀ (ws : List Word) (i : ℕ), okAt pw (ws.drop i) = true →
      ∃ j ≤ i, findRun pw ws = some (window0 pw (ws.drop j)) ∧
        okAt pw (ws.drop j) = true ∧ ∀ k < j, okAt pw (ws.drop k) = false := by
  intro ws
  induction ws with
  | nil =>
    intro i hi
    rw [List.drop_nil, okAt_nil] at hi
    exact absurd hi (by simp)
  | cons w rest ih =>
    intro i hi
    by_cases hok : okAt pw (w :: rest) = true
    · exact ⟨0, Nat.zero_le i, by simp [findRun, hok], hok,
        fun k hk => absurd hk (Nat.not_lt_zero k)⟩
    · have hokf : okAt pw (w :: rest) = false := Bool.eq_false_iff.mpr hok
      cases i with
      | zero => rw [List.drop_zero] at hi; exact absurd hi hok
      | succ i₀ =>
        rw [List.drop_succ_cons] at hi
        obtain ⟨j, hj, hfind, hokj, hmin⟩ := ih i₀ hi
        refine ⟨j + 1, Nat.succ_le_succ hj, ?_, ?_, ?_⟩
        · rw [findRun_skip pw w rest hokf, List.drop_succ_cons]
          exact hfind
        · rw [List.drop_succ_cons]; exact hokj
        · intro k hk
          cases k with
          | zero => rw [List.drop_zero]; exact hokf
          | succ k₀ =>
            rw [List.drop_succ_cons]
            exact hmin k₀ (Nat.lt_of_succ_lt_succ hk)

/-- C7.  If any window of `ws` starting at position `i` satisfies both the
content-match and same-line conditions, the phrase matcher returns the
window at the earliest accepted position `j ≤ i` (every position before `j`
is rejected), so a field's value is derived from the first occurrence of
its label and any later occurrence is ignored. -/
theorem C7_first_match (phrase : String) (ws : List Word) (i : ℕ)
    (hpw : (phraseTokens phrase).isEmpty = false)
    (hi : okAt (phraseTokens phrase) (ws.drop i) = true) :
    ∃ j ≤ i, find_key_phrase phrase ws =
        some (window0 (phraseTokens phrase) (ws.drop j)) ∧
      okAt (phraseTokens phrase) (ws.drop j) = true ∧
      ∀ k < j, okAt (phraseTokens phrase) (ws.drop k) = false := by
  rw [find_key_phrase_eq phrase ws hpw]
  exact findRun_first (phraseTokens phrase) ws i hi

/-- Second occurrence of `"No."` used in the duplicate-label word list. -/
def dupNo1 : Word := ⟨"No.", ⟨21/100, 1/10, 31/100, 14/100⟩⟩

/-- A data word between the two label occurrences. -/
def dupData : Word := ⟨"X123", ⟨4/10, 1/10, 5/10, 14/100⟩⟩

/-- Second `"License"` occurrence, lower on the page. -/
def dupLicense2 : Word := ⟨"License", ⟨1/10, 7/10, 2/10, 74/100⟩⟩

/-- Second `"No."` occurrence, next to `dupLicense2`. -/
def dupNo2 : Word := ⟨"No.", ⟨21/100, 7/10, 3/10, 74/100⟩⟩

/-- A word list in which the label `"License No."` occurs twice, both
occurrences passing the same-line check. -/
def wsDup : List Word := [licenseWord, dupNo1, dupData, dupLicense2, dupNo2]

/-- C7, witness: with the duplicate label at positions 0 and 3, the matcher
returns the window at some position `j ≤ 3` with all earlier positions
rejected (here `j = 0`, the first occurrence). -/
theorem C7_first_match_witness :
    ∃ j ≤ 3, find_key_phrase "License No." wsDup =
        some (window0 (phraseTokens "License No.") (wsDup.drop j)) ∧
      okAt (phraseTokens "License No.") (wsDup.drop j) = true ∧
      ∀ k < j, okAt (phraseTokens "License No.") (wsDup.drop k) = false :=
  C7_first_match "License No." wsDup 3 (by decide) (by decide)

/-! ### C3: the RightBounded row-field selection -/

/-- The selection that claim C3 describes, written from the claim's words
for comparison with the code: words on the same line as the anchor
(vertical-center difference below the line tolerance) whose `x_min` is
strictly greater than the anchor's `x_max` and whose `x_max` is strictly
less than the right boundary.  The code does not implement this. -/
def rightBoundedSpec (anchor : BBox) (right_boundary : ℚ) (ws : List Word) : List Word :=
  ws.filter (fun w =>
    decide (qabs (centerY w - (anchor.ymin + anchor.ymax) / 2) < 1/50) &&
    decide (w.geometry.xmin > anchor.xmax) &&
    decide (w.geometry.xmax < right_boundary))

/-- The `"Nationality"` label word of the row-field scenario. -/
def natWord : Word := ⟨"Nationality", ⟨10/100, 50/100, 22/100, 54/100⟩⟩

/-- The value word `"FIL"`: it overlaps the anchor horizontally
(`x_min = 0.20 < 0.22 =` anchor `x_max`) but its center `(0.25, 0.52)`
lies inside the code's search band. -/
def filWord : Word := ⟨"FIL", ⟨20/100, 50/100, 30/100, 54/100⟩⟩

/-- The two-word page for the row-field scenario. -/
def wsRow : List Word := [natWord, filWord]

/-- C3, counterexample.  The nationality anchor is found, the next row key
`"Sex"` is absent (so the boundary is the page edge).  The claim's
selection is empty — `"FIL"` fails `x_min > anchor.x_max` — so the claimed
value is `""`; but the code stores `"FIL"`, because it selects by center
containment (app.py lines 131 and 76-82), not by the claimed strict
`x_min`/`x_max` comparisons. -/
theorem C3_overlap_cex :
    dget (process_words wsRow) "nationality" "" = "FIL" ∧
    key_bboxes wsRow "nationality" = some ⟨10/100, 50/100, 22/100, 54/100⟩ ∧
    key_bboxes wsRow "sex" = none ∧
    rightBoundedSpec ⟨10/100, 50/100, 22/100, 54/100⟩ 1 wsRow = [] := by
  refine ⟨?_, ?_, ?_, ?_⟩
  · decide
  · decide
  · decide
  · decide

/-- C3, amended.  When a row field's label anchor is found, the code
resolves the field over the rectangle whose horizontal extent is
`[anchor.x_max, right boundary]` and whose vertical extent is the anchor's
own `[y_min, y_max]`, selecting exactly the words whose **center point**
lies in that closed rectangle (not words satisfying strict `x_min`/`x_max`
comparisons, and with no per-word line tolerance). -/
theorem C3_row_selection (ws : List Word) (i : ℕ) (name : String) (a : BBox)
    (h : key_bboxes ws name = some a) :
    rowValue ws i name =
      get_text_in_area (some ⟨a.xmax, a.ymin, rowBoundary ws i, a.ymax⟩) ws ∧
    ∀ w, w ∈ wordsInArea ⟨a.xmax, a.ymin, rowBoundary ws i, a.ymax⟩ ws ↔
      w ∈ ws ∧ a.xmax ≤ centerX w ∧ centerX w ≤ rowBoundary ws i ∧
        a.ymin ≤ centerY w ∧ centerY w ≤ a.ymax := by
  constructor
  · simp [rowValue, h]
  · intro w
    simp [wordsInArea, List.mem_filter, and_assoc, ge_iff_le]

/-- C3, witness: the amended characterization at the concrete row scenario. -/
theorem C3_row_selection_witness :
    rowValue wsRow 0 "nationality" =
      get_text_in_area (some ⟨22/100, 50/100, rowBoundary wsRow 0, 54/100⟩) wsRow ∧
    ∀ w, w ∈ wordsInArea ⟨22/100, 50/100, rowBoundary wsRow 0, 54/100⟩ wsRow ↔
      w ∈ wsRow ∧ 22/100 ≤ centerX w ∧ centerX w ≤ rowBoundary wsRow 0 ∧
        50/100 ≤ centerY w ∧ centerY w ≤ 54/100 :=
  C3_row_selection wsRow 0 "nationality" ⟨10/100, 50/100, 22/100, 54/100⟩ (by decide)

/-! ### C5: field-value cleanup -/

/-- `"Weight"`, first word of the weight label. -/
def weightWord : Word := ⟨"Weight", ⟨10/100, 50/100, 17/100, 54/100⟩⟩

/-- `"(kg)"`, second word of the weight label phrase `"Weight (kg)"`. -/
def kgLabelWord : Word := ⟨"(kg)", ⟨18/100, 50/100, 22/100, 54/100⟩⟩

/-- The numeric weight value to the right of the label. -/
def sixtyWord : Word := ⟨"60", ⟨24/100, 50/100, 28/100, 54/100⟩⟩

/-- A second `"(kg)"` unit annotation inside the value region. -/
def kgUnitWord : Word := ⟨"(kg)", ⟨30/100, 50/100, 34/100, 54/100⟩⟩

/-- The word list of the weight scenario. -/
def wsWeight : List Word := [weightWord, kgLabelWord, sixtyWord, kgUnitWord]

/-- C5, counterexample.  The claim says parenthetical unit annotations such
as `"(kg)"` are stripped from the resolved value of the weight field.  The
code's only cleanup is `.strip(":,.")` (app.py line 84): the stored weight
value keeps the swept-up `"(kg)"` annotation. -/
theorem C5_unit_not_stripped_cex :
    dget (process_words wsWeight) "weight" "" = "60 (kg)" ∧
    '(' ∈ (dget (process_words wsWeight) "weight" "").data := by
  constructor
  · decide
  · decide

/-- The head of a `dropWhile p` result never satisfies `p`. -/
lemma head?_dropWhile_false (p : Char → Bool) :
    ∀ (l : List Char) (c : Char), (l.dropWhile p).head? = some c → p c = false := by
  intro l
  induction l with
  | nil => intro c h; simp at h
  | cons x xs ih =>
    intro c h
    rw [List.dropWhile_cons] at h
    by_cases hx : p x = true
    · rw [if_pos hx] at h
      exact ih c h
    · rw [if_neg hx] at h
      simp only [List.head?_cons, Option.some.injEq] at h
      subst h
      exact Bool.eq_false_iff.mpr hx

/-- The head of a nonempty prefix is the head of the whole list. -/
lemma head?_of_initial_segment {α : Type} {l₁ l₂ : List α} {c : α}
    (hp : l₁ <+: l₂) (h : l₁.head? = some c) : l₂.head? = some c := by
  obtain ⟨t, rfl⟩ := hp
  cases l₁ with
  | nil => simp at h
  | cons x xs => simpa using h

/-- Neither end of a `stripEnds` result is one of the stripped characters. -/
lemma stripEnds_ends (s : String) (c : Char) :
    ((stripEnds s).data.head? = some c → isStripChar c = false) ∧
    ((stripEnds s).data.getLast? = some c → isStripChar c = false) := by
  have hre : (stripEnds s).data =
      List.rdropWhile isStripChar (s.data.dropWhile isStripChar) := rfl
  constructor
  · intro h
    rw [hre] at h
    exact head?_dropWhile_false isStripChar s.data c
      (head?_of_initial_segment (List.rdropWhile_prefix _ _) h)
  · intro h
    rw [hre] at h
    have hne : List.rdropWhile isStripChar (s.data.dropWhile isStripChar) ≠ [] := by
      intro hnil
      rw [hnil] at h
      simp at h
    have hnp := List.rdropWhile_last_not isStripChar (s.data.dropWhile isStripChar) hne
    have hsome := List.getLast?_eq_getLast _ hne
    rw [Option.some.inj (h.symm.trans hsome)]
    exact Bool.eq_false_iff.mpr hnp

/-- C5, amended.  The only cleanup the resolver applies is trimming leading
and trailing `':'`, `','` and `'.'` characters (Python's `.strip(":,.")`):
a stored field value never begins or ends with one of those three
characters.  No whitespace trimming beyond that is performed, and
parenthetical unit annotations such as `"(kg)"` and `"(m)"` are **not**
stripped (see the counterexample). -/
theorem C5_strip_chars (b : Option BBox) (ws : List Word) (c : Char) :
    ((get_text_in_area b ws).data.head? = some c → isStripChar c = false) ∧
    ((get_text_in_area b ws).data.getLast? = some c → isStripChar c = false) := by
  match b with
  | none =>
    constructor
    · intro h; simp [get_text_in_area] at h
    · intro h; simp [get_text_in_area] at h
  | some bb =>
    exact stripEnds_ends _ c

/-- C5, witness: a value region containing `":60:"` resolves to a string
whose first and last characters are not strip characters. -/
theorem C5_strip_chars_witness : isStripChar '6' = false ∧ isStripChar '0' = false :=
  ⟨(C5_strip_chars (some ⟨0, 0, 1, 1⟩) [⟨":60:", ⟨1/10, 1/10, 2/10, 2/10⟩⟩] '6').1
      (by decide),
    (C5_strip_chars (some ⟨0, 0, 1, 1⟩) [⟨":60:", ⟨1/10, 1/10, 2/10, 2/10⟩⟩] '0').2
      (by decide)⟩

/-! ### C6: totality of the extraction record -/

/-- The keys of the record returned by `process_words`, in the dict's
insertion order after the temporary keys are popped. -/
def recordKeys : List String :=
  ["full_name", "nationality", "sex", "date_of_birth", "weight", "height",
   "license_number", "expiration_date", "agency_code", "address",
   "blood_type", "dl_codes", "eye_color", "conditions",
   "barcode_data", "photograph_base64", "signature_base64"]

set_option maxHeartbeats 1600000 in
/-- C6.  For every input word list the extraction returns a record with
exactly one entry per field, regardless of whether any label was found;
when a label lookup fails the stored value is the field's sentinel:
`"NOT_FOUND"` for the name header, `""` for the other fields (shown here
for the nationality row field). -/
theorem C6_totality (ws : List Word) :
    (process_words ws).map Prod.fst = recordKeys ∧
    (key_bboxes ws "name_header" = none →
      dget (process_words ws) "full_name" "?" = "NOT_FOUND") ∧
    (key_bboxes ws "nationality" = none →
      dget (process_words ws) "nationality" "?" = "") := by
  refine ⟨?_, fun h => ?_, fun h => ?_⟩
  · unfold process_words recordKeys
    rcases hbt : key_bboxes ws "blood_type" with _ | bt <;>
      rcases hdl : key_bboxes ws "dl_codes" with _ | dl <;>
        rcases hec : key_bboxes ws "eye_color" with _ | ec <;>
          rcases hco : key_bboxes ws "conditions" with _ | co <;>
            simp [dinsert, dpop, dget]
  · unfold process_words
    rcases hbt : key_bboxes ws "blood_type" with _ | bt <;>
      rcases hdl : key_bboxes ws "dl_codes" with _ | dl <;>
        rcases hec : key_bboxes ws "eye_color" with _ | ec <;>
          rcases hco : key_bboxes ws "conditions" with _ | co <;>
            simp [dinsert, dpop, dget, fullNameValue, h]
  · unfold process_words
    rcases hbt : key_bboxes ws "blood_type" with _ | bt <;>
      rcases hdl : key_bboxes ws "dl_codes" with _ | dl <;>
        rcases hec : key_bboxes ws "eye_color" with _ | ec <;>
          rcases hco : key_bboxes ws "conditions" with _ | co <;>
            simp [dinsert, dpop, dget, rowValue, h]

/-- C6, witness: on the empty word list every label lookup fails, the
record still has all seventeen entries, and the sentinels are stored. -/
theorem C6_totality_witness :
    (process_words []).map Prod.fst = recordKeys ∧
    dget (process_words []) "full_name" "?" = "NOT_FOUND" ∧
    dget (process_words []) "nationality" "?" = "" :=
  ⟨(C6_totality []).1, (C6_totality []).2.1 (by decide), (C6_totality []).2.2 (by decide)⟩

/-! ### C8: page-edge boundary fallback for row fields -/

set_option maxHeartbeats 1600000 in
/-- C8.  A row (RightBounded/Between) field whose own label is found but
whose "next" label is absent resolves with the page edge `1.0` as the right
boundary, rather than failing: the boundary computation falls back to `1`,
the field's value is resolved over the band `[anchor.x_max, 1]`, and (for
the first row field, nationality, whose next key is sex) the value stored
in the final record is exactly that resolution. -/
theorem C8_page_edge_fallback (ws : List Word) (i : ℕ)
    (hnext : key_bboxes ws (rowKeys.getD (i + 1) "") = none) :
    rowBoundary ws i = 1 ∧
    (∀ (name : String) (a : BBox), key_bboxes ws name = some a →
      rowValue ws i name = get_text_in_area (some ⟨a.xmax, a.ymin, 1, a.ymax⟩) ws) ∧
    (∀ a : BBox, i = 0 → key_bboxes ws "nationality" = some a →
      dget (process_words ws) "nationality" "" =
        get_text_in_area (some ⟨a.xmax, a.ymin, 1, a.ymax⟩) ws) := by
  have hb : rowBoundary ws i = 1 := by
    by_cases hlt : i + 1 < rowKeys.length
    · have hg : rowKeys.getD (i + 1) "" = rowKeys[i + 1] :=
        List.getD_eq_getElem rowKeys "" hlt
      rw [hg] at hnext
      simp [rowBoundary, hlt, hnext]
    · simp [rowBoundary, hlt]
  refine ⟨hb, fun name a ha => ?_, fun a hi0 ha => ?_⟩
  · simp [rowValue, ha, hb]
  · subst hi0
    have hs : key_bboxes ws "sex" = none := by
      simpa [rowKeys] using hnext
    unfold process_words
    rcases hbt : key_bboxes ws "blood_type" with _ | bt <;>
      rcases hdl : key_bboxes ws "dl_codes" with _ | dl <;>
        rcases hec : key_bboxes ws "eye_color" with _ | ec <;>
          rcases hco : key_bboxes ws "conditions" with _ | co <;>
            simp [dinsert, dpop, dget, rowValue, rowBoundary, rowKeys, ha, hs]

/-- C8, witness: in the row scenario the nationality label is present, the
sex label is absent, and the stored nationality value is resolved with the
page edge `1` as the right boundary. -/
theorem C8_page_edge_fallback_witness :
    dget (process_words wsRow) "nationality" "" =
      get_text_in_area (some ⟨22/100, 50/100, 1, 54/100⟩) wsRow :=
  (C8_page_edge_fallback wsRow 0 (by decide)).2.2
    ⟨10/100, 50/100, 22/100, 54/100⟩ rfl (by decide)

end IdScanner
